import Mathlib

/-!
Verification of the ACL compilation core of defguard (WireGuard access control).

The repository snapshot contains the firewall compiler's test suite
(`crates/defguard_core/src/enterprise/firewall/tests.rs`) but not the compiler
implementation itself (`enterprise/firewall/mod.rs`).  The definitions below are
therefore a shallow embedding modelled from the natural-language specification
(spec.md §3–§4) of that missing module, with every behavioural choice pinned by
the concrete assertions of the test suite wherever the two disagree.  Machine
integers are modelled as `Nat`; IPv4/IPv6 addresses are `Nat` values below
`2 ^ 32` / `2 ^ 128` respectively, tagged with their family.
-/

namespace Defguard

/-- IP family tag (`IpVersion` in the gRPC protocol). -/
inductive IpVersion
  | v4
  | v6
deriving DecidableEq, Repr

/-- A single IP address: a family tag plus the address as an integer
(`u32` for IPv4, `u128` for IPv6 in the source). -/
inductive Ip
  | v4 (a : Nat)
  | v6 (a : Nat)
deriving DecidableEq, Repr

/-- Bit width of an address family (32 for IPv4, 128 for IPv6). -/
def family_bits : IpVersion → Nat
  | .v4 => 32
  | .v6 => 128

/-- The family of an address. -/
def Ip.version : Ip → IpVersion
  | .v4 _ => .v4
  | .v6 _ => .v6

/-- The numeric value of an address. -/
def Ip.num : Ip → Nat
  | .v4 a => a
  | .v6 a => a

/-- A CIDR network (`IpNetwork` in the source): base address plus a
network size given as the number of leading fixed bits (`plen`). -/
structure Cidr where
  addr : Ip
  plen : Nat
deriving DecidableEq, Repr

/-- Canonical address list item (`ip_address::Address` in the gRPC protocol):
a single address, a CIDR subnet, or an explicit inclusive range.  Addresses are
numeric; the family is implied by the enclosing firewall rule. -/
inductive Addr
  | single (a : Nat)
  | subnet (base : Nat) (plen : Nat)
  | range (lo : Nat) (hi : Nat)
deriving DecidableEq, Repr

/-- Canonical port list item (`port::Port` in the gRPC protocol). -/
inductive PortItem
  | single (p : Nat)
  | range (lo : Nat) (hi : Nat)
deriving DecidableEq, Repr

/-! ### Sorting helpers

The Rust code sorts ranges by their start before merging (a stable sort);
`List.insertionSort` is stable, matching that behaviour. -/

/-- Order on inclusive ranges (pairs `(lo, hi)`) by start. -/
def span_le (a b : Nat × Nat) : Prop := a.1 ≤ b.1

instance : DecidableRel span_le := fun a b => inferInstanceAs (Decidable (a.1 ≤ b.1))

instance : IsTotal (Nat × Nat) span_le := ⟨fun a b => Nat.le_total a.1 b.1⟩

instance : IsTrans (Nat × Nat) span_le := ⟨fun _ _ _ h1 h2 => Nat.le_trans h1 h2⟩

/-- Fold step of the merge: `cur` is the range being extended; the next range
is absorbed whenever it starts at or before `cur.end + 1` (overlapping or
adjacent), lifting the end to the maximum. -/
def merge_spans_go (cur : Nat × Nat) : List (Nat × Nat) → List (Nat × Nat)
  | [] => [cur]
  | b :: rest =>
    if b.1 ≤ cur.2 + 1 then merge_spans_go (cur.1, max cur.2 b.2) rest
    else cur :: merge_spans_go b rest

/-- Merge a list of inclusive ranges sorted by start.  Modelled from the spec
(§4.1 step 2, §4.2); behaviour pinned by `test_merge_v4_addrs` and
`test_merge_port_ranges`. -/
def merge_sorted_spans : List (Nat × Nat) → List (Nat × Nat)
  | [] => []
  | a :: rest => merge_spans_go a rest

/-- Sort ranges by start (stable) and merge overlapping/adjacent ones. -/
def merge_ranges (l : List (Nat × Nat)) : List (Nat × Nat) :=
  merge_sorted_spans (List.insertionSort span_le l)

/-! ### Address canonicalizer (spec §4.1)

`find_largest_subnet_in_range` and the subnet decomposition of a merged span.
The decomposition extracts the largest CIDR block of at least two addresses that
fits anywhere inside the span (the lowest such block), recursing on what is left
on either side; when no block of two or more addresses fits, the whole span is
emitted as an explicit range.  This is modelled from the spec and pinned by
`test_merge_v4_addrs`, `test_merge_addrs_extracts_ipv4_subnets`,
`test_merge_addrs_falls_back_to_range_when_no_subnet_fits`,
`test_merge_addrs_subnet_at_start_of_range` and
`test_merge_addrs_subnet_at_end_of_range`. -/

/-- Round `lo` up to the next multiple of `size`. -/
def align_up (lo size : Nat) : Nat :=
  if lo % size = 0 then lo else lo + (size - lo % size)

/-- Scan block sizes `2 ^ k, 2 ^ (k-1), …, 2` (plen values `w - k` up to
`w - 1`; single-address blocks are excluded) and return the first — hence
largest — aligned block contained in `[lo, hi]`, as `(base, plen)`. -/
def fls_go (w lo hi : Nat) : Nat → Option (Nat × Nat)
  | 0 => none
  | k + 1 =>
    if align_up lo (2 ^ (k + 1)) + 2 ^ (k + 1) - 1 ≤ hi then
      some (align_up lo (2 ^ (k + 1)), w - (k + 1))
    else fls_go w lo hi k

/-- `find_largest_subnet_in_range` from the source (per-family numeric form):
the largest CIDR block of at least two addresses contained in `[lo, hi]`,
or `none` when the range is invalid or no such block fits. -/
def find_largest_subnet_in_range (w lo hi : Nat) : Option (Nat × Nat) :=
  if hi < lo then none else fls_go w lo hi w

/-- Decompose the merged span `[lo, hi]` into canonical items (spec §4.1 steps
3–5): single addresses stay single, the largest contained CIDR block is emitted
as a subnet with the remainders handled recursively, and a span with no
contained block of two or more addresses falls back to an explicit range.
`fuel` bounds the recursion; `span_to_items` supplies `hi + 1 - lo`. -/
def span_go (w : Nat) : Nat → Nat → Nat → List Addr
  | 0, _, _ => []
  | fuel + 1, lo, hi =>
    if hi < lo then []
    else if hi ≤ lo then [Addr.single lo]
    else
      match find_largest_subnet_in_range w lo hi with
      | none => [Addr.range lo hi]
      | some (base, p) =>
        (if lo < base then span_go w fuel lo (base - 1) else []) ++
          Addr.subnet base p ::
            (if base + 2 ^ (w - p) - 1 < hi then span_go w fuel (base + 2 ^ (w - p)) hi else [])

/-- Canonical decomposition of one merged span. -/
def span_to_items (w lo hi : Nat) : List Addr :=
  span_go w (hi + 1 - lo) lo hi

/-- `merge_addrs` from the source, in per-family numeric form: drop invalid
ranges, sort by start, merge overlapping/adjacent ranges, then decompose every
merged span into canonical items. -/
def merge_addrs (w : Nat) (l : List (Nat × Nat)) : List Addr :=
  (merge_ranges (l.filter (fun r => r.1 ≤ r.2))).flatMap (fun r => span_to_items w r.1 r.2)

/-! ### Port canonicalizer (spec §4.2) -/

/-- Classify a merged port span: a one-port span is a `single`, anything else a
`range`. -/
def classify_port_span (r : Nat × Nat) : PortItem :=
  if r.1 = r.2 then PortItem.single r.1 else PortItem.range r.1 r.2

/-- `merge_port_ranges` from the source: sort port ranges by start, merge
overlapping/adjacent ones (`start ≤ current.end + 1`), classify single-port
spans as `SinglePort`.  Pinned by `test_merge_port_ranges`. -/
def merge_port_ranges (l : List (Nat × Nat)) : List PortItem :=
  (merge_ranges l).map classify_port_span

/-- The inclusive span covered by a canonical port item. -/
def port_item_span : PortItem → Nat × Nat
  | .single p => (p, p)
  | .range lo hi => (lo, hi)

/-- `x` is covered by the union of the inclusive ranges in `l`. -/
def covers (l : List (Nat × Nat)) (x : Nat) : Prop :=
  ∃ r ∈ l, r.1 ≤ x ∧ x ≤ r.2

/-! ### Data model (spec §3)

Modelled from the spec: the entities below mirror the records the compiler
reads (`AclRuleInfo`, `AclAlias`, `WireguardNetworkDevice`, `WireguardNetwork`,
`User`, `Device`), restricted to the fields the compilation pipeline uses.
`allowed_users` / `denied_users` carry the group-flattened user lists (the
storage layer's `to_info` performs the flattening). -/

/-- A user principal.  `username` stands for all non-`id` payload fields. -/
structure User where
  id : Nat
  username : String
deriving DecidableEq, Repr

/-- A network-device principal. -/
structure Device where
  id : Nat
  name : String
deriving DecidableEq, Repr

/-- Alias kinds (`AliasKind` in the source). -/
inductive AliasKind
  | destination
  | component
deriving DecidableEq, Repr

/-- An ACL alias (`AclAlias`): a reusable bundle of destination addresses,
ports and protocols.  Protocols are the wire-protocol integer tags. -/
structure AclAlias where
  id : Nat
  name : String
  kind : AliasKind
  destination : List Cidr
  destination_ranges : List (Ip × Ip)
  ports : List (Nat × Nat)
  protocols : List Nat
deriving DecidableEq, Repr

/-- ACL rule lifecycle states (`RuleState`). -/
inductive RuleState
  | new
  | modified
  | applied
deriving DecidableEq, Repr

/-- An ACL rule with its resolved relations (`AclRuleInfo`).  `expires` is a
UTC timestamp; `networks` are the assigned location ids. -/
structure AclRuleInfo where
  id : Nat
  name : String
  all_networks : Bool
  networks : List Nat
  expires : Option Nat
  enabled : Bool
  state : RuleState
  allow_all_users : Bool
  deny_all_users : Bool
  allow_all_network_devices : Bool
  deny_all_network_devices : Bool
  allowed_users : List User
  denied_users : List User
  allowed_devices : List Device
  denied_devices : List Device
  destination : List Cidr
  destination_ranges : List (Ip × Ip)
  ports : List (Nat × Nat)
  protocols : List Nat
  aliases : List AclAlias
deriving DecidableEq, Repr

/-- A device's binding to a location (`WireguardNetworkDevice`): the VPN
addresses assigned to one device in one location.  `is_network` distinguishes
network devices from user devices (`DeviceType`); `user_id` is the owner. -/
structure DeviceBinding where
  device_id : Nat
  user_id : Nat
  is_network : Bool
  location_id : Nat
  wireguard_ips : List Ip
deriving DecidableEq, Repr

/-- A location (`WireguardNetwork`): its address pool determines the supported
IP families; `acl_default_allow` selects the default policy. -/
structure Location where
  id : Nat
  acl_enabled : Bool
  acl_default_allow : Bool
  address : List Cidr
deriving DecidableEq, Repr

/-- The read-only database snapshot a compilation runs against. -/
structure Snapshot where
  users : List User
  network_devices : List Device
  bindings : List DeviceBinding
  rules : List AclRuleInfo
deriving DecidableEq, Repr

/-- Firewall verdicts (`FirewallPolicy`). -/
inductive Verdict
  | allow
  | deny
deriving DecidableEq, Repr

/-- A compiled firewall rule (`FirewallRule` of the gateway wire contract).
Address and port lists are in canonical numeric form; the family is implied by
which family the rule was generated for. -/
structure FirewallRule where
  verdict : Verdict
  source_addrs : List Addr
  destination_addrs : List Addr
  destination_ports : List PortItem
  protocols : List Nat
  comment : String
deriving DecidableEq, Repr

/-- The compiled output (`FirewallConfig`). -/
structure FirewallConfig where
  default_policy : Verdict
  rules : List FirewallRule
deriving DecidableEq, Repr

/-! ### Principal resolver (spec §4.3)

Modelled from the spec; the subtraction semantics is pinned by
`test_get_relevant_users` and `test_get_relevant_network_devices`: the
effective set is the allow list minus the deny list, comparing by stable `id`,
never by structural equality. -/

/-- `get_source_users` from the source: allowed users minus denied users,
membership decided by `id`. -/
def get_source_users (allowed denied : List User) : List User :=
  allowed.filter (fun u => !(denied.any (fun d => d.id == u.id)))

/-- `get_source_network_devices` from the source: allowed network devices minus
denied ones, membership decided by `id`. -/
def get_source_network_devices (allowed denied : List Device) : List Device :=
  allowed.filter (fun u => !(denied.any (fun d => d.id == u.id)))

/-- Effective user set of a rule: the full location universe when
`allow_all_users` is set, else the explicit allow list; empty when
`deny_all_users` is set, else minus the deny list (spec §4.3 steps 1–2). -/
def rule_allowed_users (s : Snapshot) (r : AclRuleInfo) : List User :=
  if r.deny_all_users then []
  else get_source_users (if r.allow_all_users then s.users else r.allowed_users) r.denied_users

/-- Effective network-device set of a rule (spec §4.3 step 3, symmetric). -/
def rule_allowed_devices (s : Snapshot) (r : AclRuleInfo) : List Device :=
  if r.deny_all_network_devices then []
  else
    get_source_network_devices
      (if r.allow_all_network_devices then s.network_devices else r.allowed_devices)
      r.denied_devices

/-- All VPN addresses of the user-kind devices owned by `u` in location
`loc` (spec §3 invariant 5, §4.3 step 5). -/
def user_location_ips (s : Snapshot) (loc : Location) (u : User) : List Ip :=
  (s.bindings.filter
      (fun b => !b.is_network && b.user_id == u.id && b.location_id == loc.id)).flatMap
    (fun b => b.wireguard_ips)

/-- All VPN addresses of network device `d` in location `loc`. -/
def device_location_ips (s : Snapshot) (loc : Location) (d : Device) : List Ip :=
  (s.bindings.filter
      (fun b => b.is_network && b.device_id == d.id && b.location_id == loc.id)).flatMap
    (fun b => b.wireguard_ips)

/-- `get_source_addrs` from the source: filter the principals' addresses to the
requested family and canonicalize them (pinned by `test_process_source_addrs_v4`
and `test_process_source_addrs_v6`). -/
def get_source_addrs (user_ips network_ips : List Ip) (v : IpVersion) : List Addr :=
  merge_addrs (family_bits v)
    (((user_ips ++ network_ips).filter (fun i => i.version == v)).map (fun i => (i.num, i.num)))

/-- Canonical source addresses of a rule for one family. -/
def rule_source_addrs (s : Snapshot) (loc : Location) (r : AclRuleInfo) (v : IpVersion) :
    List Addr :=
  get_source_addrs
    ((rule_allowed_users s r).flatMap (user_location_ips s loc))
    ((rule_allowed_devices s r).flatMap (device_location_ips s loc))
    v

/-! ### Destination processing -/

/-- The inclusive numeric range covered by a CIDR network. -/
def cidr_span (c : Cidr) : Nat × Nat :=
  (c.addr.num, c.addr.num + 2 ^ (family_bits c.addr.version - c.plen) - 1)

/-- `process_destination_addrs` from the source: split destination networks and
explicit ranges by family (dropping mixed-family ranges) and canonicalize each
family separately; returns the `(IPv4, IPv6)` pair (pinned by
`test_process_destination_addrs_v4` / `_v6`). -/
def process_destination_addrs (dest : List Cidr) (ranges : List (Ip × Ip)) :
    List Addr × List Addr :=
  let spans := fun v =>
    (dest.filter (fun c => c.addr.version == v)).map cidr_span ++
      (ranges.filter (fun r => r.1.version == v && r.2.version == v)).map
        (fun r => (r.1.num, r.2.num))
  (merge_addrs 32 (spans .v4), merge_addrs 128 (spans .v6))

/-- Select one family's list from a `(IPv4, IPv6)` pair. -/
def dest_pick (v : IpVersion) (p : List Addr × List Addr) : List Addr :=
  match v with
  | .v4 => p.1
  | .v6 => p.2

/-- Sorted, deduplicated protocol list (the output protocol lists are sorted by
wire tag and duplicate-free, pinned by `test_generate_firewall_rules_ipv4`). -/
def dedup_sorted : List Nat → List Nat
  | [] => []
  | [a] => [a]
  | a :: b :: rest =>
    if a = b then dedup_sorted (b :: rest) else a :: dedup_sorted (b :: rest)

/-- Canonical protocol list: sort and deduplicate. -/
def merge_protocols (l : List Nat) : List Nat :=
  dedup_sorted (List.insertionSort (fun a b : Nat => a ≤ b) l)

/-! ### Alias expander (spec §4.4) and rule compiler (spec §4.5)

Modelled from the spec, with the roles of the two alias kinds pinned by
`test_alias_kinds` and `test_destination_alias_only_acl`: the test suite shows
that `Component`-kind aliases are merged into the parent rule's
destination/port/protocol sets, while each `Destination`-kind alias is emitted
as its own sibling (ALLOW, DENY) pair (the alias-derived comments in
`test_alias_kinds` name the `Destination`-kind alias, and the parent rule's
destination contains the `Component`-kind alias's address). -/

/-- The `Component`-kind aliases of a rule (merged into the parent pair). -/
def rule_component_aliases (r : AclRuleInfo) : List AclAlias :=
  r.aliases.filter (fun a => a.kind == AliasKind.component)

/-- The `Destination`-kind aliases of a rule (each emitted as a sibling pair). -/
def rule_destination_aliases (r : AclRuleInfo) : List AclAlias :=
  r.aliases.filter (fun a => a.kind == AliasKind.destination)

/-- One alias-group of a rule: the destination/port/protocol scope and comment
base of either the parent pair or one sibling-alias pair. -/
structure RuleGroup where
  comment_base : String
  destination : List Cidr
  destination_ranges : List (Ip × Ip)
  ports : List (Nat × Nat)
  protocols : List Nat
deriving DecidableEq, Repr

/-- The parent alias-group of a rule: its own destination/ports/protocols with
every `Component`-kind alias's contributions appended.  A rule that carries
only sibling-kind aliases and has no manually configured destination produces
no parent pair of its own (spec §4.4, pinned by
`test_destination_alias_only_acl`). -/
def rule_parent_group (r : AclRuleInfo) : Option RuleGroup :=
  let comps := rule_component_aliases r
  if r.destination.isEmpty && r.destination_ranges.isEmpty && !r.aliases.isEmpty &&
      comps.isEmpty then
    none
  else
    some
      { comment_base := "ACL " ++ toString r.id ++ " - " ++ r.name
        destination := r.destination ++ comps.flatMap (fun a => a.destination)
        destination_ranges := r.destination_ranges ++ comps.flatMap (fun a => a.destination_ranges)
        ports := r.ports ++ comps.flatMap (fun a => a.ports)
        protocols := r.protocols ++ comps.flatMap (fun a => a.protocols) }

/-- The sibling alias-group for one `Destination`-kind alias: it carries only
the alias's own destination, ports and protocols. -/
def alias_group (r : AclRuleInfo) (a : AclAlias) : RuleGroup :=
  { comment_base :=
      "ACL " ++ toString r.id ++ " - " ++ r.name ++ ", ALIAS " ++ toString a.id ++ " - " ++ a.name
    destination := a.destination
    destination_ranges := a.destination_ranges
    ports := a.ports
    protocols := a.protocols }

/-- All alias-groups of a rule, parent first, then the sibling aliases in list
order. -/
def rule_groups (r : AclRuleInfo) : List RuleGroup :=
  (rule_parent_group r).toList ++ (rule_destination_aliases r).map (alias_group r)

/-- The entries one rule generates for one IP family, one per alias-group: an
optional ALLOW rule (omitted when the resolved source set for this family is
empty) and a DENY rule for the same destination scope with empty source, ports
and protocols (spec §4.5 steps 4b–4c, pinned by
`test_generate_firewall_rules_ipv4` and `test_acl_rules_all_locations_ipv4`). -/
def rule_family_entries (s : Snapshot) (loc : Location) (r : AclRuleInfo) (v : IpVersion) :
    List (Option FirewallRule × FirewallRule) :=
  let src := rule_source_addrs s loc r v
  (rule_groups r).map (fun g =>
    let dest := dest_pick v (process_destination_addrs g.destination g.destination_ranges)
    (if src.isEmpty then none
     else
       some
         { verdict := Verdict.allow
           source_addrs := src
           destination_addrs := dest
           destination_ports := merge_port_ranges g.ports
           protocols := merge_protocols g.protocols
           comment := g.comment_base ++ " ALLOW" },
     { verdict := Verdict.deny
       source_addrs := []
       destination_addrs := dest
       destination_ports := []
       protocols := []
       comment := g.comment_base ++ " DENY" }))

/-- A rule is applicable to a location at compile time when its state is
`Applied`, it is enabled, its expiry is absent or strictly later than the
compile-time clock, and it is assigned to the location or marked
`all_networks` (spec §4.5 step 2, pinned by `test_expired_acl_rules_ipv4`,
`test_disabled_acl_rules_ipv4`, `test_unapplied_acl_rules_ipv4` and
`test_acl_rules_all_locations_ipv4`). -/
def is_applicable (r : AclRuleInfo) (loc : Location) (now : Nat) : Bool :=
  r.state == RuleState.applied && r.enabled &&
    (match r.expires with
     | none => true
     | some t => decide (now < t)) &&
    (r.all_networks || r.networks.contains loc.id)

/-- The IP families a location supports, IPv4 before IPv6 (spec §4.5 steps 3
and 5). -/
def location_ip_versions (loc : Location) : List IpVersion :=
  (if loc.address.any (fun c => c.addr.version == IpVersion.v4) then [IpVersion.v4] else []) ++
    (if loc.address.any (fun c => c.addr.version == IpVersion.v6) then [IpVersion.v6] else [])

/-- Order on ACL rules by ascending id (spec §4.5 step 4). -/
def rule_le (a b : AclRuleInfo) : Prop := a.id ≤ b.id

instance : DecidableRel rule_le := fun a b => inferInstanceAs (Decidable (a.id ≤ b.id))

/-- All (rule, family, alias-group) entries of a location, in output order:
applicable rules by ascending id, families IPv4 before IPv6, parent group
before sibling-alias groups. -/
def location_entries (s : Snapshot) (loc : Location) (now : Nat) :
    List (Option FirewallRule × FirewallRule) :=
  (List.insertionSort rule_le (s.rules.filter (fun r => is_applicable r loc now))).flatMap
    (fun r => (location_ip_versions loc).flatMap (fun v => rule_family_entries s loc r v))

/-- `generate_firewall_rules` from the source: all ALLOW rules first, followed
by all DENY rules in the same relative order (spec §4.5 step 5, pinned by
`test_generate_firewall_rules_ipv4_and_ipv6` and `test_alias_kinds`). -/
def generate_firewall_rules (s : Snapshot) (loc : Location) (now : Nat) : List FirewallRule :=
  (location_entries s loc now).filterMap (fun e => e.1) ++
    (location_entries s loc now).map (fun e => e.2)

/-- `try_get_firewall_config` from the source: `none` when the location has
ACL disabled, otherwise the compiled config with the location's default
policy (spec §4.5 steps 1 and 6). -/
def try_get_firewall_config (s : Snapshot) (loc : Location) (now : Nat) :
    Option FirewallConfig :=
  if loc.acl_enabled then
    some
      { default_policy := if loc.acl_default_allow then Verdict.allow else Verdict.deny
        rules := generate_firewall_rules s loc now }
  else none

/-! ### Correctness of the range merge

The merged list of a sorted, valid range list is valid, covers exactly the
same values, and is strictly separated: consecutive merged ranges are neither
overlapping nor adjacent. -/

/-- Consecutive canonical ranges are separated by a gap of at least one
value. -/
def span_gap (a b : Nat × Nat) : Prop := a.2 + 1 < b.1

theorem covers_cons {r : Nat × Nat} {l : List (Nat × Nat)} {x : Nat} :
    covers (r :: l) x ↔ (r.1 ≤ x ∧ x ≤ r.2) ∨ covers l x := by
  simp [covers, or_and_right, exists_or]

theorem covers_of_perm {l l' : List (Nat × Nat)} (h : l.Perm l') (x : Nat) :
    covers l x ↔ covers l' x := by
  unfold covers
  constructor
  · rintro ⟨r, hr, hx⟩
    exact ⟨r, h.mem_iff.mp hr, hx⟩
  · rintro ⟨r, hr, hx⟩
    exact ⟨r, h.mem_iff.mpr hr, hx⟩

theorem merge_spans_go_spec (l : List (Nat × Nat)) :
    ∀ cur : Nat × Nat, cur.1 ≤ cur.2 → (∀ r ∈ l, r.1 ≤ r.2) → (∀ r ∈ l, cur.1 ≤ r.1) →
      List.Sorted span_le l →
      (∀ r ∈ merge_spans_go cur l, r.1 ≤ r.2) ∧
        (∀ x, covers (merge_spans_go cur l) x ↔ (cur.1 ≤ x ∧ x ≤ cur.2) ∨ covers l x) ∧
        List.Chain' span_gap (merge_spans_go cur l) ∧
        (merge_spans_go cur l).head?.map Prod.fst = some cur.1 := by
  induction l with
  | nil =>
    intro cur hc _ _ _
    refine ⟨?_, ?_, ?_, ?_⟩
    · intro r hr
      simp only [merge_spans_go, List.mem_singleton] at hr
      exact hr ▸ hc
    · intro x
      simp [merge_spans_go, covers]
    · simp [merge_spans_go]
    · simp [merge_spans_go]
  | cons b rest ih =>
    intro cur hc hv hs hsorted
    have hvb : b.1 ≤ b.2 := hv b (List.mem_cons_self b rest)
    have hcb : cur.1 ≤ b.1 := hs b (List.mem_cons_self b rest)
    have hvrest : ∀ r ∈ rest, r.1 ≤ r.2 := fun r hr => hv r (List.mem_cons_of_mem b hr)
    have hsortedrest : List.Sorted span_le rest := hsorted.of_cons
    have hbrest : ∀ r ∈ rest, b.1 ≤ r.1 := fun r hr => List.rel_of_sorted_cons hsorted r hr
    by_cases hadj : b.1 ≤ cur.2 + 1
    · have hgo :
          merge_spans_go cur (b :: rest) = merge_spans_go (cur.1, max cur.2 b.2) rest := by
        simp [merge_spans_go, hadj]
      have hc' : (cur.1, max cur.2 b.2).1 ≤ (cur.1, max cur.2 b.2).2 :=
        le_trans hc (le_max_left _ _)
      have hs' : ∀ r ∈ rest, (cur.1, max cur.2 b.2).1 ≤ r.1 :=
        fun r hr => le_trans hcb (hbrest r hr)
      obtain ⟨ih1, ih2, ih3, ih4⟩ :=
        ih (cur.1, max cur.2 b.2) hc' hvrest hs' hsortedrest
      rw [hgo]
      refine ⟨ih1, ?_, ih3, ih4⟩
      intro x
      rw [ih2 x, covers_cons]
      constructor
      · rintro (⟨h1, h2⟩ | h)
        · have hx2 : x ≤ cur.2 ∨ (b.1 ≤ x ∧ x ≤ b.2) := by
            rcases max_cases cur.2 b.2 with ⟨h4, h5⟩ | ⟨h4, h5⟩ <;> (rw [h4] at h2; omega)
          rcases hx2 with h3 | h3
          · exact Or.inl ⟨h1, h3⟩
          · exact Or.inr (Or.inl h3)
        · exact Or.inr (Or.inr h)
      · rintro (⟨h1, h2⟩ | ⟨h1, h2⟩ | h)
        · exact Or.inl ⟨h1, le_trans h2 (le_max_left _ _)⟩
        · exact Or.inl ⟨le_trans hcb h1, le_trans h2 (le_max_right _ _)⟩
        · exact Or.inr h
    · have hgo : merge_spans_go cur (b :: rest) = cur :: merge_spans_go b rest := by
        simp [merge_spans_go, hadj]
      obtain ⟨ih1, ih2, ih3, ih4⟩ := ih b hvb hvrest hbrest hsortedrest
      rw [hgo]
      refine ⟨?_, ?_, ?_, ?_⟩
      · intro r hr
        rcases List.mem_cons.mp hr with h | h
        · exact h ▸ hc
        · exact ih1 r h
      · intro x
        rw [covers_cons, ih2 x, covers_cons]
      · rw [List.chain'_cons']
        refine ⟨?_, ih3⟩
        intro y hy
        cases hhd : (merge_spans_go b rest).head? with
        | none => simp [hhd] at hy
        | some z =>
          rw [hhd] at hy
          simp only [Option.mem_def, Option.some.injEq] at hy
          subst hy
          have : z.1 = b.1 := by
            rw [hhd] at ih4
            simpa using ih4
          unfold span_gap
          omega
      · simp

theorem merge_ranges_spec (l : List (Nat × Nat)) (hv : ∀ r ∈ l, r.1 ≤ r.2) :
    (∀ r ∈ merge_ranges l, r.1 ≤ r.2) ∧
      (∀ x, covers (merge_ranges l) x ↔ covers l x) ∧
      List.Chain' span_gap (merge_ranges l) := by
  have hperm := List.perm_insertionSort span_le l
  have hsorted := List.sorted_insertionSort span_le l
  have hv' : ∀ r ∈ List.insertionSort span_le l, r.1 ≤ r.2 :=
    fun r hr => hv r (hperm.mem_iff.mp hr)
  unfold merge_ranges
  cases hsort : List.insertionSort span_le l with
  | nil =>
    have hl : l = [] := List.Perm.eq_nil ((hsort ▸ hperm).symm)
    subst hl
    simp [merge_sorted_spans, covers, List.insertionSort]
  | cons a rest =>
    rw [hsort] at hperm hsorted hv'
    have ha : a.1 ≤ a.2 := hv' a (List.mem_cons_self a rest)
    have hvrest : ∀ r ∈ rest, r.1 ≤ r.2 := fun r hr => hv' r (List.mem_cons_of_mem a hr)
    have hsrest : ∀ r ∈ rest, a.1 ≤ r.1 := fun r hr => List.rel_of_sorted_cons hsorted r hr
    obtain ⟨h1, h2, h3, _⟩ :=
      merge_spans_go_spec rest a ha hvrest hsrest hsorted.of_cons
    refine ⟨h1, ?_, h3⟩
    intro x
    rw [show merge_sorted_spans (a :: rest) = merge_spans_go a rest from rfl, h2 x,
      ← covers_cons, covers_of_perm hperm]

/-! ### Structural facts about the compiler -/

theorem rule_family_entries_shape (s : Snapshot) (loc : Location) (r : AclRuleInfo)
    (v : IpVersion) :
    ∀ e ∈ rule_family_entries s loc r v,
      e.2.verdict = Verdict.deny ∧ e.2.source_addrs = [] ∧ e.2.destination_ports = [] ∧
        e.2.protocols = [] ∧
        ∀ a, e.1 = some a →
          a.verdict = Verdict.allow ∧ a.destination_addrs = e.2.destination_addrs ∧
            a.source_addrs = rule_source_addrs s loc r v := by
  intro e he
  simp only [rule_family_entries, List.mem_map] at he
  obtain ⟨g, _, rfl⟩ := he
  by_cases h : (rule_source_addrs s loc r v).isEmpty <;> simp [h]

theorem location_entries_attribution (s : Snapshot) (loc : Location) (now : Nat) :
    ∀ e ∈ location_entries s loc now,
      ∃ r ∈ s.rules, is_applicable r loc now = true ∧
        ∃ v ∈ location_ip_versions loc, e ∈ rule_family_entries s loc r v := by
  intro e he
  simp only [location_entries, List.mem_flatMap, List.mem_insertionSort, List.mem_filter] at he
  obtain ⟨r, ⟨hr, ha⟩, v, hv, he⟩ := he
  exact ⟨r, hr, ha, v, hv, he⟩

theorem location_entries_shape (s : Snapshot) (loc : Location) (now : Nat) :
    ∀ e ∈ location_entries s loc now,
      e.2.verdict = Verdict.deny ∧ e.2.source_addrs = [] ∧ e.2.destination_ports = [] ∧
        e.2.protocols = [] ∧
        ∀ a, e.1 = some a →
          a.verdict = Verdict.allow ∧ a.destination_addrs = e.2.destination_addrs := by
  intro e he
  obtain ⟨r, _, _, v, _, he⟩ := location_entries_attribution s loc now e he
  obtain ⟨h1, h2, h3, h4, h5⟩ := rule_family_entries_shape s loc r v e he
  exact ⟨h1, h2, h3, h4, fun a ha => ⟨(h5 a ha).1, (h5 a ha).2.1⟩⟩

theorem mem_generate_of_allow (s : Snapshot) (loc : Location) (now : Nat)
    {e : Option FirewallRule × FirewallRule} {a : FirewallRule}
    (he : e ∈ location_entries s loc now) (ha : e.1 = some a) :
    a ∈ generate_firewall_rules s loc now := by
  unfold generate_firewall_rules
  exact List.mem_append_left _ (List.mem_filterMap.mpr ⟨e, he, ha⟩)

theorem mem_generate_of_deny (s : Snapshot) (loc : Location) (now : Nat)
    {e : Option FirewallRule × FirewallRule} (he : e ∈ location_entries s loc now) :
    e.2 ∈ generate_firewall_rules s loc now := by
  unfold generate_firewall_rules
  exact List.mem_append_right _ (List.mem_map.mpr ⟨e, he, rfl⟩)

theorem mem_location_entries_of_applicable (s : Snapshot) (loc : Location) (now : Nat)
    {r : AclRuleInfo} (hr : r ∈ s.rules) (ha : is_applicable r loc now = true)
    {v : IpVersion} (hv : v ∈ location_ip_versions loc)
    {e : Option FirewallRule × FirewallRule} (he : e ∈ rule_family_entries s loc r v) :
    e ∈ location_entries s loc now := by
  simp only [location_entries, List.mem_flatMap, List.mem_insertionSort, List.mem_filter]
  exact ⟨r, ⟨hr, ha⟩, v, hv, he⟩

theorem rule_groups_ne_nil (r : AclRuleInfo) : rule_groups r ≠ [] := by
  unfold rule_groups rule_parent_group
  by_cases h :
      (r.destination.isEmpty && r.destination_ranges.isEmpty && !r.aliases.isEmpty &&
        (rule_component_aliases r).isEmpty) = true
  · rw [if_pos h]
    simp only [Bool.and_eq_true, Bool.not_eq_eq_eq_not, Bool.not_true] at h
    obtain ⟨⟨⟨_, _⟩, hne⟩, hcomp⟩ := h
    have hall : ∀ a ∈ r.aliases, a.kind = AliasKind.destination := by
      intro a ha
      have := List.filter_eq_nil_iff.mp (List.isEmpty_iff.mp hcomp) a ha
      cases hk : a.kind with
      | destination => rfl
      | component =>
        rw [hk] at this
        simp at this
    have : rule_destination_aliases r = r.aliases := by
      unfold rule_destination_aliases
      exact List.filter_eq_self.mpr (fun a ha => by simp [hall a ha])
    simp only [Option.toList_none, List.nil_append, this, ne_eq, List.map_eq_nil_iff]
    intro hnil
    rw [hnil] at hne
    simp at hne
  · rw [if_neg h]
    simp

theorem rule_family_entries_ne_nil (s : Snapshot) (loc : Location) (r : AclRuleInfo)
    (v : IpVersion) : rule_family_entries s loc r v ≠ [] := by
  unfold rule_family_entries
  simp only [ne_eq, List.map_eq_nil_iff]
  exact rule_groups_ne_nil r

theorem length_filterMap_fst_of_all_some {α β : Type}
    (l : List (Option α × β)) (h : ∀ e ∈ l, e.1 ≠ none) :
    (l.filterMap (fun e => e.1)).length = l.length := by
  induction l with
  | nil => rfl
  | cons e rest ih =>
    have he : e.1 ≠ none := h e (List.mem_cons_self e rest)
    cases ha : e.1 with
    | none => exact absurd ha he
    | some a =>
      simp only [List.filterMap_cons, ha, List.length_cons]
      rw [ih (fun x hx => h x (List.mem_cons_of_mem e hx))]

/-! ### Cross-boundary fallback of the address canonicalizer -/

theorem fls_go_odd_none (w lo : Nat) (hodd : lo % 2 = 1) :
    ∀ k, fls_go w lo (lo + 1) k = none := by
  intro k
  induction k with
  | zero => rfl
  | succ k ih =>
    have hsz : 2 ≤ 2 ^ (k + 1) := by
      calc 2 = 2 ^ 1 := rfl
      _ ≤ 2 ^ (k + 1) := Nat.pow_le_pow_right (by decide) (Nat.succ_le_succ (Nat.zero_le k))
    have hdvd : 2 ∣ 2 ^ (k + 1) := dvd_pow_self 2 (Nat.succ_ne_zero k)
    have hmod2 : lo % 2 ^ (k + 1) % 2 = 1 := by
      rw [Nat.mod_mod_of_dvd lo hdvd]
      exact hodd
    have hmodne : lo % 2 ^ (k + 1) ≠ 0 := by
      intro h
      rw [h] at hmod2
      simp at hmod2
    have hmodlt : lo % 2 ^ (k + 1) < 2 ^ (k + 1) := Nat.mod_lt _ (by omega)
    have hcond : ¬(align_up lo (2 ^ (k + 1)) + 2 ^ (k + 1) - 1 ≤ lo + 1) := by
      unfold align_up
      rw [if_neg hmodne]
      omega
    unfold fls_go
    rw [if_neg hcond]
    exact ih

theorem find_largest_subnet_odd_pair_none (w lo : Nat) (hodd : lo % 2 = 1) :
    find_largest_subnet_in_range w lo (lo + 1) = none := by
  unfold find_largest_subnet_in_range
  rw [if_neg (by omega)]
  exact fls_go_odd_none w lo hodd w

theorem span_to_items_odd_pair (w lo : Nat) (hodd : lo % 2 = 1) :
    span_to_items w lo (lo + 1) = [Addr.range lo (lo + 1)] := by
  unfold span_to_items
  have h2 : lo + 1 + 1 - lo = 1 + 1 := by omega
  rw [h2]
  show span_go w (1 + 1) lo (lo + 1) = [Addr.range lo (lo + 1)]
  unfold span_go
  rw [if_neg (by omega), if_neg (by omega), find_largest_subnet_odd_pair_none w lo hodd]

/-! ### Concrete scenarios

Numeric scenarios mirroring the repository's test fixtures.  IPv4 addresses
are written as their `u32` values: `10.0.1.1 = 167772417`, `10.0.1.2`,
`10.0.2.1 = 167772673`, `10.0.2.2`, `10.0.2.3 = 167772675`,
`10.0.2.4 = 167772676`, `192.168.1.0 = 3232235776`,
`192.168.2.0 = 3232236032`. -/

/-- A single-family IPv4 location with ACL enabled (mirrors the default
`WireguardNetwork` of the tests). -/
def loc_v4 : Location := ⟨1, true, false, [⟨Ip.v4 0, 0⟩]⟩

def user1 : User := ⟨1, "u1"⟩

def user2 : User := ⟨2, "u2"⟩

/-- Two users with two user devices each at `10.0.<uid>.<devnum>` (mirrors the
device setup of `test_alias_kinds`). -/
def two_user_bindings : List DeviceBinding :=
  [⟨1, 1, false, 1, [Ip.v4 167772417]⟩, ⟨2, 1, false, 1, [Ip.v4 167772418]⟩,
    ⟨3, 2, false, 1, [Ip.v4 167772673]⟩, ⟨4, 2, false, 1, [Ip.v4 167772674]⟩]

/-- The `Destination`-kind alias of `test_alias_kinds`: ports 100–200, no
destination addresses. -/
def dest_kind_alias : AclAlias := ⟨1, "destination alias", .destination, [], [], [(100, 200)], []⟩

/-- The `Component`-kind alias of `test_alias_kinds`: destination `10.0.2.3`. -/
def comp_kind_alias : AclAlias := ⟨2, "", .component, [⟨Ip.v4 167772675, 32⟩], [], [], []⟩

/-- The ACL rule of `test_alias_kinds`: destination `192.168.1.0/24`,
`allow_all_users`, carrying one alias of each kind. -/
def alias_rule : AclRuleInfo :=
  { id := 1, name := "test rule", all_networks := false, networks := [1], expires := none
    enabled := true, state := .applied, allow_all_users := true, deny_all_users := false
    allow_all_network_devices := false, deny_all_network_devices := false
    allowed_users := [], denied_users := [], allowed_devices := [], denied_devices := []
    destination := [⟨Ip.v4 3232235776, 24⟩], destination_ranges := [], ports := []
    protocols := [], aliases := [dest_kind_alias, comp_kind_alias] }

def alias_snapshot : Snapshot := ⟨[user1, user2], [], two_user_bindings, [alias_rule]⟩

/-- The two `Destination`-kind aliases of `test_destination_alias_only_acl`. -/
def postgres_alias : AclAlias :=
  ⟨1, "postgres", .destination, [⟨Ip.v4 167772675, 32⟩], [], [(5432, 5432)], []⟩

def redis_alias : AclAlias :=
  ⟨2, "redis", .destination, [⟨Ip.v4 167772676, 32⟩], [], [(6379, 6379)], []⟩

/-- The ACL rule of `test_destination_alias_only_acl`: no manually configured
destination, only `Destination`-kind aliases. -/
def dest_only_rule : AclRuleInfo :=
  { id := 1, name := "test rule", all_networks := false, networks := [1], expires := none
    enabled := true, state := .applied, allow_all_users := true, deny_all_users := false
    allow_all_network_devices := false, deny_all_network_devices := false
    allowed_users := [], denied_users := [], allowed_devices := [], denied_devices := []
    destination := [], destination_ranges := [], ports := []
    protocols := [], aliases := [postgres_alias, redis_alias] }

def dest_only_snapshot : Snapshot := ⟨[user1, user2], [], two_user_bindings, [dest_only_rule]⟩

/-- Rule with one allowed user and destination `192.168.1.0/24`. -/
def simple_rule_1 : AclRuleInfo :=
  { id := 1, name := "a", all_networks := false, networks := [1], expires := none
    enabled := true, state := .applied, allow_all_users := false, deny_all_users := false
    allow_all_network_devices := false, deny_all_network_devices := false
    allowed_users := [user1], denied_users := [], allowed_devices := [], denied_devices := []
    destination := [⟨Ip.v4 3232235776, 24⟩], destination_ranges := [], ports := []
    protocols := [], aliases := [] }

/-- Rule with one allowed user and destination `192.168.2.0/24`. -/
def simple_rule_2 : AclRuleInfo :=
  { id := 2, name := "b", all_networks := false, networks := [1], expires := none
    enabled := true, state := .applied, allow_all_users := false, deny_all_users := false
    allow_all_network_devices := false, deny_all_network_devices := false
    allowed_users := [user1], denied_users := [], allowed_devices := [], denied_devices := []
    destination := [⟨Ip.v4 3232236032, 24⟩], destination_ranges := [], ports := []
    protocols := [], aliases := [] }

/-- One user with one device at `10.0.1.1`, two applicable rules. -/
def two_rule_snapshot : Snapshot :=
  ⟨[user1], [], [⟨1, 1, false, 1, [Ip.v4 167772417]⟩], [simple_rule_1, simple_rule_2]⟩

/-- Applicable rule matching no principals and carrying no destination, ports,
protocols or aliases (the shape of a default `AclRule` in
`test_acl_rules_all_locations_ipv4`). -/
def empty_rule_1 : AclRuleInfo :=
  { id := 1, name := "r", all_networks := false, networks := [1], expires := none
    enabled := true, state := .applied, allow_all_users := false, deny_all_users := false
    allow_all_network_devices := false, deny_all_network_devices := false
    allowed_users := [], denied_users := [], allowed_devices := [], denied_devices := []
    destination := [], destination_ranges := [], ports := []
    protocols := [], aliases := [] }

def no_principal_snapshot : Snapshot := ⟨[], [], [], [empty_rule_1]⟩

/-- Same as `empty_rule_1` but with id 2. -/
def empty_rule_2 : AclRuleInfo :=
  { id := 2, name := "r", all_networks := false, networks := [1], expires := none
    enabled := true, state := .applied, allow_all_users := false, deny_all_users := false
    allow_all_network_devices := false, deny_all_network_devices := false
    allowed_users := [], denied_users := [], allowed_devices := [], denied_devices := []
    destination := [], destination_ranges := [], ports := []
    protocols := [], aliases := [] }

/-- One rule with a matching principal plus one rule matching none: two
applicable (rule, family, alias-group) triples, three output entries. -/
def mixed_snapshot : Snapshot :=
  ⟨[user1], [], [⟨1, 1, false, 1, [Ip.v4 167772417]⟩], [simple_rule_1, empty_rule_2]⟩

/-- Applicable rule matching no principals but with destination
`192.168.1.0/24` (the shape of `acl_rule_1` in
`test_acl_rules_all_locations_ipv4`). -/
def dest_no_principal_rule : AclRuleInfo :=
  { id := 1, name := "w", all_networks := false, networks := [1], expires := none
    enabled := true, state := .applied, allow_all_users := false, deny_all_users := false
    allow_all_network_devices := false, deny_all_network_devices := false
    allowed_users := [], denied_users := [], allowed_devices := [], denied_devices := []
    destination := [⟨Ip.v4 3232235776, 24⟩], destination_ranges := [], ports := []
    protocols := [], aliases := [] }

def dest_no_principal_snapshot : Snapshot := ⟨[], [], [], [dest_no_principal_rule]⟩

/-! ### Claims -/

/-- C1 (counterexample): the claim says a `Destination`-kind alias is merged
into the parent rule's destination/port sets (so some single output entry would
carry both the parent subnet `192.168.1.0/24` and the alias's ports 100–200)
and a `Component`-kind alias is emitted as an independent sibling pair carrying
only the alias's own destination (so some output entry would have destination
exactly `[10.0.2.3]`).  In the `test_alias_kinds` scenario the compiled output
contains neither: the code merges the `Component`-kind alias into the parent
and emits the `Destination`-kind alias as the sibling pair. -/
theorem c1_alias_kinds_counterexample :
    (∀ fr ∈ generate_firewall_rules alias_snapshot loc_v4 0,
        ¬(PortItem.range 100 200 ∈ fr.destination_ports ∧
            Addr.subnet 3232235776 24 ∈ fr.destination_addrs)) ∧
      ∀ fr ∈ generate_firewall_rules alias_snapshot loc_v4 0,
        fr.destination_addrs ≠ [Addr.single 167772675] := by
  decide

/-- C1 (amended): alias kinds act with the roles swapped relative to the
claim.  Each `Component`-kind alias has its destination addresses, ports and
protocols merged into the parent rule's destination/port/protocol sets,
producing a single expanded (ALLOW, DENY) pair, while each `Destination`-kind
alias is emitted as an independent sibling (ALLOW, DENY) pair that shares the
parent rule's source principals but carries only the alias's own destination,
ports and protocols; a rule with only `Destination`-kind aliases and no manual
destination emits no parent pair.  Proved on the scenarios of
`test_alias_kinds` and `test_destination_alias_only_acl`. -/
theorem c1_alias_kinds_amended :
    generate_firewall_rules alias_snapshot loc_v4 0 =
        [{ verdict := Verdict.allow
           source_addrs := [Addr.range 167772417 167772418, Addr.range 167772673 167772674]
           destination_addrs := [Addr.single 167772675, Addr.subnet 3232235776 24]
           destination_ports := [], protocols := [], comment := "ACL 1 - test rule ALLOW" },
         { verdict := Verdict.allow
           source_addrs := [Addr.range 167772417 167772418, Addr.range 167772673 167772674]
           destination_addrs := [], destination_ports := [PortItem.range 100 200]
           protocols := []
           comment := "ACL 1 - test rule, ALIAS 1 - destination alias ALLOW" },
         { verdict := Verdict.deny, source_addrs := []
           destination_addrs := [Addr.single 167772675, Addr.subnet 3232235776 24]
           destination_ports := [], protocols := [], comment := "ACL 1 - test rule DENY" },
         { verdict := Verdict.deny, source_addrs := [], destination_addrs := []
           destination_ports := [], protocols := []
           comment := "ACL 1 - test rule, ALIAS 1 - destination alias DENY" }] ∧
      generate_firewall_rules dest_only_snapshot loc_v4 0 =
        [{ verdict := Verdict.allow
           source_addrs := [Addr.range 167772417 167772418, Addr.range 167772673 167772674]
           destination_addrs := [Addr.single 167772675]
           destination_ports := [PortItem.single 5432], protocols := []
           comment := "ACL 1 - test rule, ALIAS 1 - postgres ALLOW" },
         { verdict := Verdict.allow
           source_addrs := [Addr.range 167772417 167772418, Addr.range 167772673 167772674]
           destination_addrs := [Addr.single 167772676]
           destination_ports := [PortItem.single 6379], protocols := []
           comment := "ACL 1 - test rule, ALIAS 2 - redis ALLOW" },
         { verdict := Verdict.deny, source_addrs := []
           destination_addrs := [Addr.single 167772675]
           destination_ports := [], protocols := []
           comment := "ACL 1 - test rule, ALIAS 1 - postgres DENY" },
         { verdict := Verdict.deny, source_addrs := []
           destination_addrs := [Addr.single 167772676]
           destination_ports := [], protocols := []
           comment := "ACL 1 - test rule, ALIAS 2 - redis DENY" }] := by
  constructor <;> decide

/-- C2 (counterexample): an applicable ACL rule that matches no principals and
has no destination specification is not omitted — it still contributes a DENY
entry (with empty source and destination) to the compiled output, exactly as
the rule counts in `test_acl_rules_all_locations_ipv4` require. -/
theorem c2_no_principal_rule_counterexample :
    generate_firewall_rules no_principal_snapshot loc_v4 0 ≠ [] ∧
      generate_firewall_rules no_principal_snapshot loc_v4 0 =
        [{ verdict := Verdict.deny, source_addrs := [], destination_addrs := []
           destination_ports := [], protocols := [], comment := "ACL 1 - r DENY" }] := by
  constructor <;> decide

/-- C2 (amended): for every applicable ACL rule that matches no principals and
has no destination specification and no aliases, the compiler omits only the
ALLOW entry; a DENY entry with empty source, destination, ports and protocols
is still emitted for each supported family and appears in the output. -/
theorem c2_no_principal_rule_amended (s : Snapshot) (loc : Location) (now : Nat)
    (r : AclRuleInfo) (v : IpVersion)
    (hu : rule_allowed_users s r = []) (hd : rule_allowed_devices s r = [])
    (hdest : r.destination = []) (hranges : r.destination_ranges = [])
    (hal : r.aliases = [])
    (hr : r ∈ s.rules) (happ : is_applicable r loc now = true)
    (hv : v ∈ location_ip_versions loc) :
    rule_family_entries s loc r v =
        [(none,
          { verdict := Verdict.deny, source_addrs := [], destination_addrs := []
            destination_ports := [], protocols := []
            comment := "ACL " ++ toString r.id ++ " - " ++ r.name ++ " DENY" })] ∧
      ({ verdict := Verdict.deny, source_addrs := [], destination_addrs := []
         destination_ports := [], protocols := []
         comment := "ACL " ++ toString r.id ++ " - " ++ r.name ++ " DENY" } : FirewallRule) ∈
        generate_firewall_rules s loc now := by
  have hsrc : rule_source_addrs s loc r v = [] := by
    simp [rule_source_addrs, hu, hd, get_source_addrs, merge_addrs, merge_ranges,
      List.insertionSort, merge_sorted_spans]
  have hentries : rule_family_entries s loc r v =
      [(none,
        { verdict := Verdict.deny, source_addrs := [], destination_addrs := []
          destination_ports := [], protocols := []
          comment := "ACL " ++ toString r.id ++ " - " ++ r.name ++ " DENY" })] := by
    unfold rule_family_entries
    rw [hsrc]
    unfold rule_groups rule_parent_group rule_component_aliases rule_destination_aliases
    rw [hal, hdest, hranges]
    cases v <;>
      simp [alias_group, dest_pick, process_destination_addrs, merge_addrs, merge_ranges,
        List.insertionSort, merge_sorted_spans]
  refine ⟨hentries, ?_⟩
  have hmem : (none (α := FirewallRule),
      ({ verdict := Verdict.deny, source_addrs := [], destination_addrs := []
         destination_ports := [], protocols := []
         comment := "ACL " ++ toString r.id ++ " - " ++ r.name ++ " DENY" } : FirewallRule)) ∈
      rule_family_entries s loc r v := by
    rw [hentries]
    exact List.mem_singleton.mpr rfl
  exact mem_generate_of_deny s loc now
    (mem_location_entries_of_applicable s loc now hr happ hv hmem)

/-- C2 (witness): the amended statement instantiated on a concrete snapshot
with one applicable principal-free, destination-free rule. -/
theorem c2_no_principal_rule_amended_witness :
    rule_family_entries no_principal_snapshot loc_v4 empty_rule_1 IpVersion.v4 =
        [(none,
          { verdict := Verdict.deny, source_addrs := [], destination_addrs := []
            destination_ports := [], protocols := [], comment := "ACL 1 - r DENY" })] ∧
      ({ verdict := Verdict.deny, source_addrs := [], destination_addrs := []
         destination_ports := [], protocols := [], comment := "ACL 1 - r DENY" } : FirewallRule) ∈
        generate_firewall_rules no_principal_snapshot loc_v4 0 := by
  have h := c2_no_principal_rule_amended no_principal_snapshot loc_v4 0 empty_rule_1
    IpVersion.v4 (by decide) (by decide) rfl rfl rfl (by decide) (by decide) (by decide)
  exact h

/-- C5: for every applicable ACL rule without aliases and every supported IP
family, if the rule's resolved source address set for that family is empty, the
compiler omits the ALLOW entry but still emits the DENY entry — empty source,
ports and protocols, carrying the rule's canonicalized destination (possibly
empty) — so the rule contributes exactly one output entry for that family
instead of two, and that entry appears in the compiled output. -/
theorem c5_empty_source_deny_only (s : Snapshot) (loc : Location) (now : Nat)
    (r : AclRuleInfo) (v : IpVersion)
    (hal : r.aliases = [])
    (hsrc : rule_source_addrs s loc r v = [])
    (hr : r ∈ s.rules) (happ : is_applicable r loc now = true)
    (hv : v ∈ location_ip_versions loc) :
    rule_family_entries s loc r v =
        [(none,
          { verdict := Verdict.deny, source_addrs := []
            destination_addrs :=
              dest_pick v (process_destination_addrs r.destination r.destination_ranges)
            destination_ports := [], protocols := []
            comment := "ACL " ++ toString r.id ++ " - " ++ r.name ++ " DENY" })] ∧
      ({ verdict := Verdict.deny, source_addrs := []
         destination_addrs :=
           dest_pick v (process_destination_addrs r.destination r.destination_ranges)
         destination_ports := [], protocols := []
         comment := "ACL " ++ toString r.id ++ " - " ++ r.name ++ " DENY" } : FirewallRule) ∈
        generate_firewall_rules s loc now := by
  have hentries : rule_family_entries s loc r v =
      [(none,
        { verdict := Verdict.deny, source_addrs := []
          destination_addrs :=
            dest_pick v (process_destination_addrs r.destination r.destination_ranges)
          destination_ports := [], protocols := []
          comment := "ACL " ++ toString r.id ++ " - " ++ r.name ++ " DENY" })] := by
    unfold rule_family_entries
    rw [hsrc]
    unfold rule_groups rule_parent_group rule_component_aliases rule_destination_aliases
    rw [hal]
    simp [alias_group]
  refine ⟨hentries, ?_⟩
  have hmem : (none (α := FirewallRule),
      ({ verdict := Verdict.deny, source_addrs := []
         destination_addrs :=
           dest_pick v (process_destination_addrs r.destination r.destination_ranges)
         destination_ports := [], protocols := []
         comment := "ACL " ++ toString r.id ++ " - " ++ r.name ++ " DENY" } : FirewallRule)) ∈
      rule_family_entries s loc r v := by
    rw [hentries]
    exact List.mem_singleton.mpr rfl
  exact mem_generate_of_deny s loc now
    (mem_location_entries_of_applicable s loc now hr happ hv hmem)

/-- C5 (witness): concrete rule matching no principals with destination
`192.168.1.0/24`; its single per-family entry is the DENY carrying the
canonicalized destination. -/
theorem c5_empty_source_deny_only_witness :
    rule_family_entries dest_no_principal_snapshot loc_v4 dest_no_principal_rule IpVersion.v4 =
        [(none,
          { verdict := Verdict.deny, source_addrs := []
            destination_addrs := [Addr.subnet 3232235776 24]
            destination_ports := [], protocols := [], comment := "ACL 1 - w DENY" })] ∧
      ({ verdict := Verdict.deny, source_addrs := []
         destination_addrs := [Addr.subnet 3232235776 24]
         destination_ports := [], protocols := [], comment := "ACL 1 - w DENY" } : FirewallRule) ∈
        generate_firewall_rules dest_no_principal_snapshot loc_v4 0 := by
  have h := c5_empty_source_deny_only dest_no_principal_snapshot loc_v4 0
    dest_no_principal_rule IpVersion.v4 rfl (by decide) (by decide) (by decide) (by decide)
  exact h

/-- Expected first ALLOW of the two-rule scenario. -/
def two_rule_allow_1 : FirewallRule :=
  { verdict := Verdict.allow, source_addrs := [Addr.single 167772417]
    destination_addrs := [Addr.subnet 3232235776 24]
    destination_ports := [], protocols := [], comment := "ACL 1 - a ALLOW" }

/-- Expected second ALLOW of the two-rule scenario. -/
def two_rule_allow_2 : FirewallRule :=
  { verdict := Verdict.allow, source_addrs := [Addr.single 167772417]
    destination_addrs := [Addr.subnet 3232236032 24]
    destination_ports := [], protocols := [], comment := "ACL 2 - b ALLOW" }

/-- Expected first DENY of the two-rule scenario. -/
def two_rule_deny_1 : FirewallRule :=
  { verdict := Verdict.deny, source_addrs := []
    destination_addrs := [Addr.subnet 3232235776 24]
    destination_ports := [], protocols := [], comment := "ACL 1 - a DENY" }

/-- Expected second DENY of the two-rule scenario. -/
def two_rule_deny_2 : FirewallRule :=
  { verdict := Verdict.deny, source_addrs := []
    destination_addrs := [Addr.subnet 3232236032 24]
    destination_ports := [], protocols := [], comment := "ACL 2 - b DENY" }

/-- The literal reading of claim C3: in the compiled output list, every ALLOW
entry is immediately followed by its paired DENY (same destination, empty
source). -/
def deny_immediately_follows (l : List FirewallRule) : Prop :=
  ∀ i a, l.get? i = some a → a.verdict = Verdict.allow →
    ∃ d, l.get? (i + 1) = some d ∧ d.verdict = Verdict.deny ∧
      d.destination_addrs = a.destination_addrs ∧ d.source_addrs = []

/-- C3 (counterexample): with two applicable rules the output is
`[ALLOW 1, ALLOW 2, DENY 1, DENY 2]`, so the entry immediately following the
first ALLOW is another ALLOW, not its paired DENY: the paired DENY does not
immediately follow the ALLOW in the output list. -/
theorem c3_paired_deny_counterexample :
    ¬deny_immediately_follows (generate_firewall_rules two_rule_snapshot loc_v4 0) := by
  intro h
  have hL : generate_firewall_rules two_rule_snapshot loc_v4 0 =
      [two_rule_allow_1, two_rule_allow_2, two_rule_deny_1, two_rule_deny_2] := by
    decide
  rw [hL] at h
  obtain ⟨d, hd1, hd2, -, -⟩ := h 0 two_rule_allow_1 rfl rfl
  rw [show ([two_rule_allow_1, two_rule_allow_2, two_rule_deny_1,
      two_rule_deny_2].get? 1) = some two_rule_allow_2 from rfl] at hd1
  cases hd1
  exact absurd hd2 (by decide)

/-- C3 (amended): for every entry the compiler generates, the DENY member has
empty source, ports and protocols and is present in the output, and whenever
the entry's ALLOW member exists it is an ALLOW with identical destination
addresses that is also present in the output — every emitted ALLOW has its
paired DENY (the DENY follows it within the per-group sequence, while globally
all ALLOWs precede all DENYs). -/
theorem c3_paired_deny_amended (s : Snapshot) (loc : Location) (now : Nat) :
    ∀ e ∈ location_entries s loc now,
      e.2.verdict = Verdict.deny ∧ e.2.source_addrs = [] ∧
        e.2.destination_ports = [] ∧ e.2.protocols = [] ∧
        e.2 ∈ generate_firewall_rules s loc now ∧
        ∀ a, e.1 = some a →
          a.verdict = Verdict.allow ∧ a.destination_addrs = e.2.destination_addrs ∧
            a ∈ generate_firewall_rules s loc now := by
  intro e he
  obtain ⟨h1, h2, h3, h4, h5⟩ := location_entries_shape s loc now e he
  exact ⟨h1, h2, h3, h4, mem_generate_of_deny s loc now he,
    fun a ha => ⟨(h5 a ha).1, (h5 a ha).2, mem_generate_of_allow s loc now he ha⟩⟩

/-- C3 (witness): the amended statement instantiated on the first entry of the
two-rule scenario: its ALLOW and its paired DENY (same destination, empty
source/ports/protocols) both appear in the output. -/
theorem c3_paired_deny_amended_witness :
    two_rule_deny_1 ∈ generate_firewall_rules two_rule_snapshot loc_v4 0 ∧
      two_rule_allow_1 ∈ generate_firewall_rules two_rule_snapshot loc_v4 0 := by
  have h := c3_paired_deny_amended two_rule_snapshot loc_v4 0
    (some two_rule_allow_1, two_rule_deny_1) (by decide)
  exact ⟨h.2.2.2.2.1, (h.2.2.2.2.2 two_rule_allow_1 rfl).2.2⟩

/-- C4 (counterexample): a location with two applicable (rule, family,
alias-group) triples need not yield exactly four entries: when one rule's
resolved source set is empty its ALLOW is omitted, leaving three entries. -/
theorem c4_two_n_counterexample :
    (location_entries mixed_snapshot loc_v4 0).length = 2 ∧
      (generate_firewall_rules mixed_snapshot loc_v4 0).length = 3 ∧
      (generate_firewall_rules mixed_snapshot loc_v4 0).length ≠
        2 * (location_entries mixed_snapshot loc_v4 0).length := by
  refine ⟨by decide, by decide, by decide⟩

/-- C4 (amended): the compiled output is the block of all ALLOW rules followed
by the block of all DENY rules, both blocks listing the applicable (rule,
family, alias-group) triples in the same relative order (ascending rule id,
IPv4 before IPv6, parent group before sibling aliases — the generation order of
`location_entries`); a triple contributes its ALLOW only when its resolved
source set is non-empty, so the output has exactly 2N entries when every
triple's source resolves non-empty (and fewer otherwise). -/
theorem c4_ordering_amended (s : Snapshot) (loc : Location) (now : Nat) :
    generate_firewall_rules s loc now =
        (location_entries s loc now).filterMap (fun e => e.1) ++
          (location_entries s loc now).map (fun e => e.2) ∧
      (∀ fr ∈ (location_entries s loc now).filterMap (fun e => e.1),
        fr.verdict = Verdict.allow) ∧
      (∀ fr ∈ (location_entries s loc now).map (fun e => e.2), fr.verdict = Verdict.deny) ∧
      ((∀ e ∈ location_entries s loc now, e.1 ≠ none) →
        (generate_firewall_rules s loc now).length = 2 * (location_entries s loc now).length) := by
  refine ⟨rfl, ?_, ?_, ?_⟩
  · intro fr hfr
    obtain ⟨e, he, ha⟩ := List.mem_filterMap.mp hfr
    exact ((location_entries_shape s loc now e he).2.2.2.2 fr ha).1
  · intro fr hfr
    obtain ⟨e, he, hfr⟩ := List.mem_map.mp hfr
    exact hfr ▸ (location_entries_shape s loc now e he).1
  · intro hall
    unfold generate_firewall_rules
    rw [List.length_append, List.length_map, length_filterMap_fst_of_all_some _ hall]
    omega

/-- C4 (witness): in the two-rule scenario every triple's source is non-empty,
so the output length is exactly twice the number of triples. -/
theorem c4_ordering_amended_witness :
    (generate_firewall_rules two_rule_snapshot loc_v4 0).length =
      2 * (location_entries two_rule_snapshot loc_v4 0).length :=
  (c4_ordering_amended two_rule_snapshot loc_v4 0).2.2.2 (by decide)

/-- C6: a stored ACL rule contributes firewall rules to the compiled output if
and only if its state is `Applied`, it is enabled, its expiry is absent or
strictly later than the compile-time clock, and it is assigned to this location
or marked for all locations.  First conjunct: the eligibility predicate is
exactly that conjunction.  Second conjunct: deleting an ineligible rule from
the snapshot leaves the compiled output unchanged (it contributes nothing).
Third conjunct: an eligible rule of a location with at least one supported
family contributes at least its leading DENY entry to the output. -/
theorem c6_eligibility_filter :
    (∀ (r : AclRuleInfo) (loc : Location) (now : Nat),
        is_applicable r loc now = true ↔
          r.state = RuleState.applied ∧ r.enabled = true ∧
            (∀ t, r.expires = some t → now < t) ∧
            (r.all_networks = true ∨ loc.id ∈ r.networks)) ∧
      (∀ (s : Snapshot) (loc : Location) (now : Nat) (r : AclRuleInfo)
          (l1 l2 : List AclRuleInfo),
        s.rules = l1 ++ r :: l2 → is_applicable r loc now = false →
          generate_firewall_rules ⟨s.users, s.network_devices, s.bindings, l1 ++ l2⟩ loc now =
            generate_firewall_rules s loc now) ∧
      ∀ (s : Snapshot) (loc : Location) (now : Nat) (r : AclRuleInfo),
        r ∈ s.rules → is_applicable r loc now = true →
          ∀ hver : location_ip_versions loc ≠ [],
            ((rule_family_entries s loc r ((location_ip_versions loc).head hver)).head
                (rule_family_entries_ne_nil s loc r _)).2 ∈
              generate_firewall_rules s loc now := by
  refine ⟨?_, ?_, ?_⟩
  · intro r loc now
    cases hex : r.expires with
    | none => simp [is_applicable, hex, and_assoc]
    | some t => simp [is_applicable, hex, and_assoc]
  · intro s loc now r l1 l2 hs h
    show generate_firewall_rules ⟨s.users, s.network_devices, s.bindings, l1 ++ l2⟩ loc now =
      generate_firewall_rules ⟨s.users, s.network_devices, s.bindings, s.rules⟩ loc now
    rw [hs]
    unfold generate_firewall_rules location_entries
    rw [show (Snapshot.mk s.users s.network_devices s.bindings (l1 ++ l2)).rules = l1 ++ l2
        from rfl,
      show (Snapshot.mk s.users s.network_devices s.bindings (l1 ++ r :: l2)).rules =
        l1 ++ r :: l2 from rfl,
      List.filter_append, List.filter_append, List.filter_cons_of_neg (by simp [h])]
    rfl
  · intro s loc now r hr ha hver
    exact mem_generate_of_deny s loc now
      (mem_location_entries_of_applicable s loc now hr ha
        (List.head_mem hver) (List.head_mem (rule_family_entries_ne_nil s loc r _)))

/-- C6 (witness): concrete instantiations — the eligibility predicate holds
for an applicable rule of the two-rule scenario, and that rule's leading DENY
entry is a member of the compiled output. -/
theorem c6_eligibility_filter_witness :
    two_rule_deny_1 ∈ generate_firewall_rules two_rule_snapshot loc_v4 0 ∧
      is_applicable simple_rule_1 loc_v4 0 = true := by
  refine ⟨?_, by decide⟩
  have h := c6_eligibility_filter.2.2 two_rule_snapshot loc_v4 0 simple_rule_1
    (by decide) (by decide) (by decide)
  exact h

/-- C7: for all allow and deny principal lists, the effective principal set is
the allow list minus the deny list, where membership and subtraction compare by
stable id — never by structural equality — and an explicit deny wins over an
allow; in particular allowed users with ids {1, 2, 4} minus denied users with
ids {3, 4, 5} resolve to the users with ids {1, 2} even though the denied
record with id 4 differs structurally from the allowed one, and symmetrically
for network devices. -/
theorem c7_principal_subtraction :
    (∀ (allowed denied : List User) (u : User),
        u ∈ get_source_users allowed denied ↔
          u ∈ allowed ∧ ∀ d ∈ denied, d.id ≠ u.id) ∧
      (∀ (allowed denied : List Device) (dv : Device),
        dv ∈ get_source_network_devices allowed denied ↔
          dv ∈ allowed ∧ ∀ d ∈ denied, d.id ≠ dv.id) ∧
      get_source_users [⟨1, "u1"⟩, ⟨2, "u2"⟩, ⟨4, "u4"⟩]
          [⟨3, "x3"⟩, ⟨4, "x4"⟩, ⟨5, "x5"⟩] = [⟨1, "u1"⟩, ⟨2, "u2"⟩] ∧
      get_source_network_devices [⟨1, "d1"⟩, ⟨3, "d3"⟩, ⟨4, "d4"⟩, ⟨5, "d5"⟩]
          [⟨2, "e2"⟩, ⟨4, "e4"⟩, ⟨5, "e5"⟩] = [⟨1, "d1"⟩, ⟨3, "d3"⟩] := by
  refine ⟨?_, ?_, by decide, by decide⟩
  · intro allowed denied u
    simp [get_source_users, List.mem_filter]
  · intro allowed denied dv
    simp [get_source_network_devices, List.mem_filter]

/-- C7 (witness): the membership characterization instantiated at a concrete
user: the allowed user with id 2 survives the subtraction. -/
theorem c7_principal_subtraction_witness :
    (⟨2, "u2"⟩ : User) ∈ get_source_users [⟨1, "u1"⟩, ⟨2, "u2"⟩, ⟨4, "u4"⟩]
      [⟨3, "x3"⟩, ⟨4, "x4"⟩, ⟨5, "x5"⟩] :=
  (c7_principal_subtraction.1 _ _ _).mpr (by decide)

/-- C8: a merged span of two addresses whose start is not aligned to any CIDR
block larger than a single address (an odd start, straddling a CIDR boundary)
is emitted by the address canonicalizer as one explicit range covering the full
span, rather than two single addresses. -/
theorem c8_cross_boundary_range (w lo : Nat) (hodd : lo % 2 = 1) :
    merge_addrs w [(lo, lo + 1)] = [Addr.range lo (lo + 1)] := by
  unfold merge_addrs merge_ranges
  rw [show [(lo, lo + 1)].filter (fun r => r.1 ≤ r.2) = [(lo, lo + 1)] by simp,
    show List.insertionSort span_le [(lo, lo + 1)] = [(lo, lo + 1)] by
      simp [List.insertionSort],
    show merge_sorted_spans [(lo, lo + 1)] = [(lo, lo + 1)] from rfl]
  simp [span_to_items_odd_pair w lo hodd]

/-- C8 (witness): the scenario of the spec and of
`test_merge_addrs_falls_back_to_range_when_no_subnet_fits`:
`192.168.1.255 – 192.168.2.0` (3232236031–3232236032) canonicalizes to the
single explicit range. -/
theorem c8_cross_boundary_range_witness :
    merge_addrs 32 [(3232236031, 3232236032)] = [Addr.range 3232236031 3232236032] :=
  c8_cross_boundary_range 32 3232236031 (by decide)

/-- C9: for every list of port ranges with `start ≤ end ≤ 65535`, the port
canonicalizer produces the canonical merged form: its items' spans are the
merged ranges, they cover exactly the values covered by the input, consecutive
spans are sorted and separated by a gap of at least one port (so overlapping,
adjacent and duplicate input ranges are merged), and every multi-port item is a
genuine `range` (single-port spans are classified as `single`); in particular
`[501–699, 151–220, 210–300, 800, 50]` yields
`[single 50, range 151 300, range 501 699, single 800]`. -/
theorem c9_merge_port_ranges :
    (∀ l : List (Nat × Nat), (∀ r ∈ l, r.1 ≤ r.2 ∧ r.2 ≤ 65535) →
        (merge_port_ranges l).map port_item_span = merge_ranges l ∧
          (∀ x, covers ((merge_port_ranges l).map port_item_span) x ↔ covers l x) ∧
          List.Chain' span_gap ((merge_port_ranges l).map port_item_span) ∧
          ∀ a b, PortItem.range a b ∈ merge_port_ranges l → a < b) ∧
      merge_port_ranges [(501, 699), (151, 220), (210, 300), (800, 800), (50, 50)] =
        [PortItem.single 50, PortItem.range 151 300, PortItem.range 501 699,
          PortItem.single 800] := by
  refine ⟨?_, by decide⟩
  intro l hv
  have hv' : ∀ r ∈ l, r.1 ≤ r.2 := fun r hr => (hv r hr).1
  obtain ⟨hvout, hcov, hchain⟩ := merge_ranges_spec l hv'
  have hcomp : ∀ r : Nat × Nat, port_item_span (classify_port_span r) = r := by
    intro r
    unfold classify_port_span
    by_cases h : r.1 = r.2
    · rw [if_pos h]
      exact Prod.ext rfl h
    · rw [if_neg h]
      rfl
  have hmap : (merge_port_ranges l).map port_item_span = merge_ranges l := by
    unfold merge_port_ranges
    have hml : ∀ L : List (Nat × Nat), (L.map classify_port_span).map port_item_span = L := by
      intro L
      induction L with
      | nil => rfl
      | cons a t ih => simp only [List.map_cons, ih, hcomp a]
    exact hml (merge_ranges l)
  refine ⟨hmap, ?_, ?_, ?_⟩
  · intro x
    rw [hmap]
    exact hcov x
  · rw [hmap]
    exact hchain
  · intro a b hmem
    unfold merge_port_ranges at hmem
    obtain ⟨r, hr, hcl⟩ := List.mem_map.mp hmem
    have hvr : r.1 ≤ r.2 := hvout r hr
    unfold classify_port_span at hcl
    by_cases h : r.1 = r.2
    · rw [if_pos h] at hcl
      cases hcl
    · rw [if_neg h] at hcl
      cases hcl
      omega

/-- C9 (witness): the universal part instantiated on the claim's concrete
input; its merged spans are sorted and pairwise separated. -/
theorem c9_merge_port_ranges_witness :
    List.Chain' span_gap
      ((merge_port_ranges [(501, 699), (151, 220), (210, 300), (800, 800), (50, 50)]).map
        port_item_span) :=
  (c9_merge_port_ranges.1 [(501, 699), (151, 220), (210, 300), (800, 800), (50, 50)]
    (by decide)).2.2.1

/-- C10: for every location with `acl_enabled` set to false,
`try_get_firewall_config` returns `none` — no `FirewallConfig` is produced at
all, regardless of the applicable ACL rules — and conversely a config is
produced exactly when ACL is enabled. -/
theorem c10_acl_disabled_none (s : Snapshot) (loc : Location) (now : Nat) :
    try_get_firewall_config s loc now = none ↔ loc.acl_enabled = false := by
  unfold try_get_firewall_config
  by_cases h : loc.acl_enabled <;> simp [h]

end Defguard
